import Mathlib

/-!
Verification development for the document-conversion module
(`util/converter/converter.go` of mangk/F_moredoc).

The Go code is a glue layer around external command-line tools.  We embed it
shallowly: each external-process invocation becomes a point in an explicit
environment (a record of booleans / functions saying whether that invocation
succeeds and what it outputs), and the Go control flow around those calls is
translated function-by-function.  Machine integers are modelled as `Int`
(Go `int` overflow is irrelevant at the page counts involved); fallible Go
functions return pairs with an error component (`Bool` or `Option String`).

Go standard-library string primitives used by the code are modelled over
`List Char` / `String`:
  * `strings.Split` (non-empty separator)        → `goSplit`
  * `strings.TrimSpace` (ASCII whitespace)       → `trimSpaceGo`
  * `strings.ToLower` / `strings.HasPrefix`      → `List.map Char.toLower` / `List.isPrefixOf`
  * `strings.TrimLeft` (cutset semantics)        → `trimLeftCutset`
  * `strings.TrimSuffix`                         → `trimSuffixGo`
  * `strconv.Atoi` (error collapsed to 0, as the
    code discards the error with `pages, _ =`)   → `goAtoi`
  * `filepath.Ext` (suffix from the last dot of
    the last element; separator is `/`)          → `goExt`
  * `fmt.Sprintf(dir ++ "/%d" ++ ext, i+1)`      → `pagePathFor`
-/

/-- Go `filepath.Ext`: the suffix beginning at the final dot in the final
path element (scanning backwards, stopping at the path separator `/`);
empty if there is no dot. -/
def goExt (path : String) : String :=
  let rev := path.data.reverse
  let pre := rev.takeWhile (fun c => c ≠ '.' && c ≠ '/')
  match rev.drop pre.length with
  | '.' :: _ => ⟨'.' :: pre.reverse⟩
  | _ => ""

/-- Go `strings.TrimSuffix`: remove `suffix` from the end of `s` when present
(`s[:len(s)-len(suffix)]`). -/
def trimSuffixGo (s suffix : String) : String :=
  if suffix.data.isSuffixOf s.data then
    ⟨s.data.take (s.data.length - suffix.data.length)⟩
  else s

/-- Go `strings.TrimLeft` with a cutset: drop leading characters that occur in
`cutset`. -/
def trimLeftCutset (l cutset : List Char) : List Char :=
  l.dropWhile (fun c => cutset.contains c)

/-- ASCII whitespace, the characters `strings.TrimSpace` strips in the
tool-output lines handled here. -/
def isSpaceChar (c : Char) : Bool :=
  c = ' ' || c = '\t' || c = '\n' || c = '\r'

/-- Go `strings.TrimSpace` (restricted to ASCII whitespace). -/
def trimSpaceGo (l : List Char) : List Char :=
  ((l.dropWhile isSpaceChar).reverse.dropWhile isSpaceChar).reverse

/-- First occurrence of `sep` in a character list: the part before it and the
part after it, or `none` when `sep` does not occur. -/
def findSplit (sep : List Char) : List Char → Option (List Char × List Char)
  | [] => none
  | c :: rest =>
    if sep.isPrefixOf (c :: rest) then some ([], (c :: rest).drop sep.length)
    else
      match findSplit sep rest with
      | some (pre, post) => some (c :: pre, post)
      | none => none

/-- Fuelled worker for `goSplit`; the fuel bounds the number of separator
occurrences, `s.length + 1` always suffices for a non-empty separator. -/
def goSplitF (sep : List Char) : Nat → List Char → List (List Char)
  | 0, s => [s]
  | Nat.succ fuel, s =>
    match findSplit sep s with
    | none => [s]
    | some (pre, post) => pre :: goSplitF sep fuel post

/-- Go `strings.Split` for a non-empty separator: split around every
non-overlapping occurrence of `sep`, left to right.  Always returns at least
one segment (`[s]` when `sep` does not occur, `[[]]` for the empty string). -/
def goSplit (s sep : List Char) : List (List Char) :=
  goSplitF sep (s.length + 1) s

/- ### Format router (`ConvertToPDF`, claim C6) -/

/-- Which external backend a to-PDF conversion is routed to. -/
inductive PDFBackend
  | soffice
  | calibre
  | pdfCopy
deriving DecidableEq, Repr

/-- `convertToPDFBySoffice`: headless office-suite conversion (leaf wrapper,
identified by the backend it invokes). -/
def convertToPDFBySoffice : PDFBackend := PDFBackend.soffice

/-- `convertToPDFByCalibre`: ebook-converter conversion (leaf wrapper). -/
def convertToPDFByCalibre : PDFBackend := PDFBackend.calibre

/-- `ConvertOfficeToPDF` delegates to the office-suite leaf. -/
def ConvertOfficeToPDF : PDFBackend := convertToPDFBySoffice

/-- `ConvertEPUBToPDF` delegates to the ebook-converter leaf. -/
def ConvertEPUBToPDF : PDFBackend := convertToPDFByCalibre

/-- `ConvertUMDToPDF` delegates to the office-suite leaf. -/
def ConvertUMDToPDF : PDFBackend := convertToPDFBySoffice

/-- `ConvertTXTToPDF` delegates to the office-suite leaf. -/
def ConvertTXTToPDF : PDFBackend := convertToPDFBySoffice

/-- `ConvertMOBIToPDF` delegates to the ebook-converter leaf. -/
def ConvertMOBIToPDF : PDFBackend := convertToPDFByCalibre

/-- `ConvertAZWToPDF` delegates to the ebook-converter leaf. -/
def ConvertAZWToPDF : PDFBackend := convertToPDFByCalibre

/-- `ConvertCHMToPDF` delegates to the ebook-converter leaf. -/
def ConvertCHMToPDF : PDFBackend := convertToPDFByCalibre

/-- `PDFToPDF`: identity copy of the source PDF into the workspace. -/
def PDFToPDF : PDFBackend := PDFBackend.pdfCopy

/-- `ConvertToPDF`: inspect `strings.ToLower(filepath.Ext(src))` and dispatch.
The `default` arm of the Go `switch` calls `ConvertOfficeToPDF` (the
commented-out unsupported-type error is not raised), so the routing is total:
no extension produces an error at this layer. -/
def ConvertToPDF (src : String) : PDFBackend :=
  let ext := (goExt src).toLower
  if ext = ".epub" then ConvertEPUBToPDF
  else if ext = ".umd" then ConvertUMDToPDF
  else if ext = ".txt" then ConvertTXTToPDF
  else if ext = ".mobi" then ConvertMOBIToPDF
  else if ext = ".azw" ∨ ext = ".azw3" ∨ ext = ".azw4" then ConvertAZWToPDF
  else if ext = ".chm" then ConvertCHMToPDF
  else if ext = ".pdf" then PDFToPDF
  else ConvertOfficeToPDF

/-- The routing table as the claim states it: the six ebook extensions go to
the ebook converter, `pdf` to the identity copy, and everything else
(including `umd`, `txt` and unrecognized extensions) to the office suite. -/
def routeClaim (src : String) : PDFBackend :=
  let ext := (goExt src).toLower
  if ext ∈ [".epub", ".mobi", ".azw", ".azw3", ".azw4", ".chm"] then
    PDFBackend.calibre
  else if ext = ".pdf" then PDFBackend.pdfCopy
  else PDFBackend.soffice

/- ### PDF → per-page conversion (`convertPDFToPage`,
`convertPDFToPageByInkscape`; claims C1, C5, C9) -/

/-- One generated page: 1-based page number and the path of its file. -/
structure Page where
  pageNum : Int
  pagePath : String
deriving DecidableEq, Repr

/-- `fmt.Sprintf(c.workspace + "/%d" + ext, i+1)`: the expected output path of
the `i`-th page of the requested range (0-based loop index, 1-based file
name). -/
def pagePathFor (ws ext : String) (i : Nat) : String :=
  ws ++ "/" ++ toString (i + 1) ++ ext

/-- Number of loop iterations of `for i := 0; i <= toPage-fromPage; i++`. -/
def pageCount (fromPage toPage : Int) : Nat :=
  (toPage - fromPage + 1).toNat

/-- Environment for the page-conversion functions: the outcome of each
external-process invocation and each `os.Stat` existence check.
`mutoolOk` is the success of the single `mutool convert` call over the range;
`mutoolStat i` tells whether the `i`-th expected output file exists afterwards.
`inkOk1 p` / `inkOk2 p` are the success of the inkscape invocation for page
number `p` with the `--pdf-page` / `--pages` argument form; `inkStat i` is the
existence check after a successful inkscape invocation for loop index `i`. -/
structure PageEnv where
  mutoolOk : Bool
  mutoolStat : Nat → Bool
  inkOk1 : Int → Bool
  inkOk2 : Int → Bool
  inkStat : Nat → Bool

/-- Which inkscape argument form an invocation used. -/
inductive InkForm
  | pdfPage
  | pagesAlt
deriving DecidableEq, Repr

/-- Ghost record of one inkscape process invocation: the page number passed
and the argument form used. -/
structure InkCall where
  page : Int
  form : InkForm
deriving DecidableEq, Repr

/-- Result of `convertPDFToPageByInkscape`, with a ghost trace of the
inkscape invocations it performed. -/
structure InkResult where
  pages : List Page
  calls : List InkCall
  err : Bool
deriving DecidableEq, Repr

/-- Loop body of `convertPDFToPageByInkscape`, starting at loop index `i` with
`n` iterations remaining.  Per page: invoke inkscape with `--pdf-page`; on
failure invoke it again with `--pages`; if both fail, `return` the pages
collected so far together with the error.  After a successful invocation,
`os.Stat` the expected file; on stat failure `break` (the stat error is the
returned error). -/
def convertPDFToPageByInkscape (env : PageEnv) (ws ext : String)
    (fromPage : Int) : Nat → Nat → InkResult
  | _, 0 => ⟨[], [], false⟩
  | i, Nat.succ n =>
    let p := fromPage + i
    let path := pagePathFor ws ext i
    if env.inkOk1 p then
      if env.inkStat i then
        let r := convertPDFToPageByInkscape env ws ext fromPage (i + 1) n
        ⟨⟨p, path⟩ :: r.pages, ⟨p, InkForm.pdfPage⟩ :: r.calls, r.err⟩
      else ⟨[], [⟨p, InkForm.pdfPage⟩], true⟩
    else if env.inkOk2 p then
      if env.inkStat i then
        let r := convertPDFToPageByInkscape env ws ext fromPage (i + 1) n
        ⟨⟨p, path⟩ :: r.pages,
          ⟨p, InkForm.pdfPage⟩ :: ⟨p, InkForm.pagesAlt⟩ :: r.calls, r.err⟩
      else ⟨[], [⟨p, InkForm.pdfPage⟩, ⟨p, InkForm.pagesAlt⟩], true⟩
    else ⟨[], [⟨p, InkForm.pdfPage⟩, ⟨p, InkForm.pagesAlt⟩], true⟩

/-- The post-invocation existence loop of `convertPDFToPage`: for each loop
index, `os.Stat` the expected file; on failure `break` with the stat error as
the (named, returned) error; otherwise append the page. -/
def convertPDFToPageLoop (env : PageEnv) (ws ext : String)
    (fromPage : Int) : Nat → Nat → List Page × Bool
  | _, 0 => ([], false)
  | i, Nat.succ n =>
    if env.mutoolStat i then
      let r := convertPDFToPageLoop env ws ext fromPage (i + 1) n
      (⟨fromPage + i, pagePathFor ws ext i⟩ :: r.1, r.2)
    else ([], true)

/-- `convertPDFToPage`: one `mutool convert` invocation over the whole range,
then the existence loop.  The deferred closure fires whenever the named `err`
is non-nil at return — from the failed `mutool` invocation or from a failed
`os.Stat` — and replaces both `pages` and `err` with the result of
`convertPDFToPageByInkscape` over the same range. -/
def convertPDFToPage (env : PageEnv) (ws ext : String)
    (fromPage toPage : Int) : List Page × Bool :=
  let n := pageCount fromPage toPage
  let primary :=
    if env.mutoolOk then convertPDFToPageLoop env ws ext fromPage 0 n
    else ([], true)
  if primary.2 then
    let r := convertPDFToPageByInkscape env ws ext fromPage 0 n
    (r.pages, r.err)
  else primary

/-- The pages the loops produce for a fully successful run starting at loop
index `i` with `n` pages: page numbers `fromPage + i, fromPage + i + 1, …`,
paths `<i+1><ext>, <i+2><ext>, …` inside the workspace. -/
def rangePages (ws ext : String) (f : Int) : Nat → Nat → List Page
  | _, 0 => []
  | i, Nat.succ n => ⟨f + i, pagePathFor ws ext i⟩ :: rangePages ws ext f (i + 1) n

/-- Witness environment for C1: the primary invocation succeeds and every
expected file exists. -/
def envC1ok : PageEnv :=
  ⟨true, fun _ => true, fun _ => false, fun _ => false, fun _ => false⟩

/-- Counterexample environment for C1 as stated: the primary invocation
succeeds, the file for the first page exists, the file for the second page is
missing, and every inkscape invocation fails. -/
def envC1miss : PageEnv :=
  ⟨true, fun i => i == 0, fun _ => false, fun _ => false, fun _ => false⟩

/-- Witness environment for C5: the primary invocation fails; page 1 succeeds
with `--pdf-page`, page 2 only with the alternate `--pages` form, and both
forms fail for page 3. -/
def envC5 : PageEnv :=
  ⟨false, fun _ => false, fun p => p == 1, fun p => p == 2, fun _ => true⟩

/- ### Page-set conversion (`ConvertPDFToPages`, `ConvertPNGToJPG`,
`ConvertPDFToSVG`; claims C9, C4) -/

/-- `CompressSVGByGZIP`'s destination name: the source extension replaced by
`.gzip.svg`. -/
def gzipDstName (svgFile : String) : String :=
  trimSuffixGo svgFile (goExt svgFile) ++ ".gzip.svg"

/-- Environment for the page-set pipeline: the rasterization environment plus
the success of each per-file external invocation (`convert` for png→jpg/webp,
file read/write for the gzip compression). -/
structure ConvEnv where
  page : PageEnv
  convertOk : String → Bool
  gzipOk : String → Bool

/-- `ConvertPNGToJPG`: destination is the source with its extension replaced
by `.jpg`; the error is the imagemagick invocation's. -/
def ConvertPNGToJPG (env : ConvEnv) (src : String) : String × Bool :=
  (trimSuffixGo src (goExt src) ++ ".jpg", !env.convertOk src)

/-- `ConvertPNGToWEBP`: destination is the source with its extension replaced
by `.webp`; the error is the imagemagick invocation's. -/
def ConvertPNGToWEBP (env : ConvEnv) (src : String) : String × Bool :=
  (trimSuffixGo src (goExt src) ++ ".webp", !env.convertOk src)

/-- `ConvertPDFToPNG` delegates to `convertPDFToPage` with extension `.png`. -/
def ConvertPDFToPNG (env : ConvEnv) (ws : String) (f t : Int) : List Page × Bool :=
  convertPDFToPage env.page ws ".png" f t

/-- Result of a page-set conversion, with a ghost record of the intermediate
files the pipeline deleted (`os.Remove` calls). -/
structure ConvResult where
  pages : List Page
  removed : List String
  err : Bool
deriving DecidableEq, Repr

/-- The per-page loop of the jpg/webp branch of `ConvertPDFToPages`: convert
each page best-effort; on success the entry's path becomes the new file and
the intermediate PNG is removed, on failure the entry is left unchanged; the
loop never aborts. -/
def convertPagesLoop (env : ConvEnv) (isWebp : Bool) : List Page → List Page × List String
  | [] => ([], [])
  | pg :: rest =>
    let conv := if isWebp then ConvertPNGToWEBP env pg.pagePath
                else ConvertPNGToJPG env pg.pagePath
    let r := convertPagesLoop env isWebp rest
    if conv.2 then (pg :: r.1, r.2)
    else ({ pg with pagePath := conv.1 } :: r.1, pg.pagePath :: r.2)

/-- The gzip loop of `ConvertPDFToSVG`: per page, compress; on success remove
the original and substitute the compressed path. -/
def gzipPagesLoop (env : ConvEnv) : List Page → List Page × List String
  | [] => ([], [])
  | pg :: rest =>
    let r := gzipPagesLoop env rest
    if env.gzipOk pg.pagePath then
      ({ pg with pagePath := gzipDstName pg.pagePath } :: r.1, pg.pagePath :: r.2)
    else (pg :: r.1, r.2)

/-- `ConvertPDFToSVG`: rasterize to `.svg` via `convertPDFToPage`; on error or
an empty page list return immediately; otherwise optionally batch-minify
(best-effort, no effect on the returned list) and optionally gzip each page. -/
def ConvertPDFToSVG (env : ConvEnv) (ws : String) (f t : Int)
    (enableSVGO enableGZIP : Bool) : ConvResult :=
  let r := convertPDFToPage env.page ws ".svg" f t
  if r.2 then ⟨r.1, [], true⟩
  else if r.1 = [] then ⟨r.1, [], false⟩
  else if enableGZIP then
    let g := gzipPagesLoop env r.1
    ⟨g.1, g.2, false⟩
  else ⟨r.1, [], false⟩

/-- `ConvertPDFToPages`: trim leading dots off the requested extension and
dispatch — `png` returns the raster pages as-is, `jpg`/`webp` rasterizes to
PNG and then converts each page individually (the PNG-stage error is the
returned error; per-page conversion failures do not abort), anything else
goes through the SVG vectorizer. -/
def ConvertPDFToPages (env : ConvEnv) (ws : String) (f t : Int)
    (extension : String) (enableSVGO enableGZIP : Bool) : ConvResult :=
  let ext : String := ⟨trimLeftCutset extension.data ".".data⟩
  if ext = "png" then
    let r := ConvertPDFToPNG env ws f t
    ⟨r.1, [], r.2⟩
  else if ext = "jpg" ∨ ext = "webp" then
    let r := ConvertPDFToPNG env ws f t
    let s := convertPagesLoop env (ext = "webp") r.1
    ⟨s.1, s.2, r.2⟩
  else
    ConvertPDFToSVG env ws f t enableSVGO enableGZIP

/- ### Page counting (`CountPDFPages`, `countPDFPagesV2`, `getPdfPages`;
claims C2, C3, C7) -/

/-- Digit sequence to number: `none` when the list is empty or contains a
non-digit (in which case `strconv.Atoi` reports an error). -/
def parseDigits : List Char → Option Nat
  | [] => none
  | l =>
    l.foldl (fun acc c =>
      match acc with
      | some a => if c.isDigit then some (a * 10 + (c.toNat - '0'.toNat)) else none
      | none => none) (some 0)

/-- Go `strconv.Atoi` with its error collapsed to `0`, because the caller
discards the error (`pages, _ = strconv.Atoi(...)`): an optional sign
followed by at least one digit parses; anything else yields 0. -/
def goAtoi (l : List Char) : Int :=
  match l with
  | '+' :: rest => Int.ofNat ((parseDigits rest).getD 0)
  | '-' :: rest => -Int.ofNat ((parseDigits rest).getD 0)
  | _ => Int.ofNat ((parseDigits l).getD 0)

/-- The scan of `CountPDFPages` over the primary tool's output lines, from
the last line backwards (the list passed here is already reversed).  `acc` is
the current value of the named return `pages`, which persists across
iterations: a line that starts with `page` but parses non-positive updates
`pages` and the scan continues; the first positive parse returns. -/
def primaryScan : List (List Char) → Int → Int
  | [], acc => acc
  | line :: rest, acc =>
    let l := trimSpaceGo (line.map Char.toLower)
    if "page".data.isPrefixOf l then
      let v := goAtoi (trimSpaceGo (trimLeftCutset ((goSplit l "=".data).headD []) "page".data))
      if v > 0 then v else primaryScan rest v
    else primaryScan rest acc

/-- Parse of the primary tool's textual output: split into lines and scan
them from the end for the first line whose lowercased, trimmed form starts
with `page` and whose numeric part (before `=`, after stripping the `page`
cutset and spaces) is positive. -/
def parsePrimary (out : String) : Int :=
  primaryScan (goSplit out.data "\n".data).reverse 0

/-- Outcome of the `rsc.io/pdf` library call in `getPdfPages`: it can return
a page count, return an error from `pdf.Open`, or panic (the panic is
recovered and converted to an error). -/
inductive LibOutcome
  | ok (n : Int)
  | errReturn
  | panics (msg : String)

/-- Environment for the page-counting chain: the primary `mutool show`
invocation's combined output (`none` when the process fails), the library
outcome, and the raw file content (`none` when `os.ReadFile` fails). -/
structure CountEnv where
  file : String
  mutoolShow : Option String
  lib : LibOutcome
  content : Option String

/-- `getPdfPages`: the named `err` is only set by the recovered panic.  The
`pdf.Open` error is assigned to a **shadowed** `err` inside
`if reader, err := pdf.Open(file); err == nil`, so when the library returns
an error the function still returns `(0, nil)`. -/
def getPdfPages (env : CountEnv) : Int × Option String :=
  match env.lib with
  | LibOutcome.ok n => (n, none)
  | LibOutcome.errReturn => (0, none)
  | LibOutcome.panics msg => (0, some msg)

/-- The raw-byte stage of `countPDFPagesV2`: split the content on `/Pages`,
take the final segment, split it on `endobj`, take the first segment, and
return the number of `0 R` occurrences in it (`len(split)-1`); the two
structure-mismatch error branches guard on `len > 0`. -/
def rawByteCount (file : String) (content : List Char) : Int × Option String :=
  let arr := goSplit content "/Pages".data
  if arr.length > 0 then
    let arr2 := goSplit (arr.getLastD []) "endobj".data
    if arr2.length > 0 then
      (Int.ofNat (goSplit (arr2.headD []) "0 R".data).length - 1, none)
    else (0, some (file ++ ":\"endobj\"分割时失败"))
  else (0, some (file ++ ":\"/Pages\"分割时失败"))

/-- `countPDFPagesV2`: try the library reader first; only when it reports an
error (which, due to the shadowed `err`, happens only on a recovered panic)
fall back to reading the file and applying the raw-byte heuristic. -/
def countPDFPagesV2 (env : CountEnv) : Int × Option String :=
  match getPdfPages env with
  | (p, none) => (p, none)
  | (_, some _) =>
    match env.content with
    | none => (0, some "read file error")
    | some content => rawByteCount env.file content.data

/-- `CountPDFPages`: run `mutool show <file> pages`; if the process fails the
deferred closure invokes `countPDFPagesV2`; if the process succeeds, scan its
output — the named `err` remains nil on every parse outcome, so the deferred
fallback does **not** run even when no positive page count was parsed.  The
third component is a ghost flag recording whether the fallback was invoked. -/
def CountPDFPages (env : CountEnv) : Int × Option String × Bool :=
  match env.mutoolShow with
  | none =>
    let r := countPDFPagesV2 env
    (r.1, r.2, true)
  | some out => (parsePrimary out, none, false)

/-- Counterexample environment for C2: `mutool show` succeeds but its output
contains no line starting with `page`. -/
def envC2 : CountEnv := ⟨"h.pdf", some "hello", LibOutcome.ok 9, some ""⟩

/-- Witness environment for C2's amended statement: a successful primary
process whose output parses to 3 pages. -/
def envC2W : CountEnv := ⟨"h.pdf", some "page 3", LibOutcome.ok 9, none⟩

/-- Failing input for C3: the library reader fails with a *returned* error
(not a panic), and the file content has the `/Pages … endobj` structure the
byte heuristic is supposed to scan. -/
def envC3 : CountEnv :=
  ⟨"g.pdf", none, LibOutcome.errReturn, some "/Pages 1 0 R 2 0 R 3 0 R endobj"⟩

/-- Failing input for C7: the library reader panics (so the raw-byte stage
does run) on a file whose bytes contain neither `/Pages` nor `endobj`. -/
def envC7 : CountEnv :=
  ⟨"f.pdf", none, LibOutcome.panics "boom", some "no structure 1 0 R here"⟩

/- ### SVG gzip compression (`CompressSVGByGZIP`, claim C4) -/

/-- Fuelled worker for `replaceAll`. -/
def replaceAllF (pat rep : List Char) : Nat → List Char → List Char
  | 0, s => s
  | Nat.succ fuel, s =>
    match findSplit pat s with
    | none => s
    | some (pre, post) => pre ++ rep ++ replaceAllF pat rep fuel post

/-- Go `bytes.ReplaceAll` for a non-empty pattern: replace every
non-overlapping occurrence of `pat`, left to right. -/
def replaceAll (s pat rep : List Char) : List Char :=
  replaceAllF pat rep (s.length + 1) s

/-- The two literal substitutions `CompressSVGByGZIP` applies before
compression.  The Go code iterates over a two-entry map, whose iteration
order is unspecified; the two patterns are disjoint (neither occurs in, nor
overlaps, the other or the other's replacement — both patterns contain `d`
only at offset 0 and differ at offset 11), so the two orders produce the same
bytes and a fixed order is a faithful model. -/
def svgSubstitute (s : String) : String :=
  ⟨replaceAll (replaceAll s.data "data-text=\"<\"".data "data-text=\"&lt;\"".data)
     "data-text=\">\"".data "data-text=\"&gt;\"".data⟩

/-- Result of `CompressSVGByGZIP`: the destination filename, the bytes
written to it (`none` when nothing was written), and the error. -/
structure GzipResult where
  dst : String
  written : Option String
  err : Bool

/-- `CompressSVGByGZIP`: the destination name is computed up front (and is
returned even on error); the file is read (`content = none` models the
`os.ReadFile` failure, which returns early), the two substitutions are
applied, and the result is gzip-compressed at `BestCompression` and written.
The compressor is abstracted as `encode` (`gzip.NewWriterLevel` cannot fail
for `BestCompression`, and `Flush` pushes every input byte into the buffer
before `WriteFile`). -/
def CompressSVGByGZIP (encode : String → String) (svgFile : String)
    (content : Option String) : GzipResult :=
  match content with
  | none => ⟨gzipDstName svgFile, none, true⟩
  | some s => ⟨gzipDstName svgFile, some (encode (svgSubstitute s)), false⟩

/- ### Workspace lifecycle (`makeWorkspace`, `Clean`, `SetCachePath`;
claims C8, C10) -/

/-- The mutable state of a `Converter` relevant to the workspace claims: the
cache root and the cached workspace path (logger and timeout omitted — they
play no role in these claims). -/
structure Converter where
  cachePath : String
  workspace : String
deriving DecidableEq, Repr

/-- `makeWorkspace`: return the cached path when non-empty; otherwise join
cache root, formatted date and a fresh uuid and cache it.  `uid` and `date`
stand for `uuid.NewV1()` and `time.Now().Format("2006/01/02")`;
`filepath.Join`+`ToSlash` is modelled as `/`-interleaved concatenation, which
is what `Join` produces for already-clean components on a `/` platform. -/
def makeWorkspace (uid date : String) (c : Converter) : String × Converter :=
  if c.workspace ≠ "" then (c.workspace, c)
  else
    let w := c.cachePath ++ "/" ++ date ++ "/" ++ uid
    (w, { c with workspace := w })

/-- `Clean`: when a workspace is cached, `os.RemoveAll` it (the removed tree's
root is the first component, a ghost observation) and reset the cached path
to empty (the reset happens whether or not the removal errored). -/
def Clean (c : Converter) : Option String × Converter :=
  if c.workspace ≠ "" then (some c.workspace, { c with workspace := "" })
  else (none, c)

/-- `SetCachePath`: replace the cache root (the `os.MkdirAll` side effect has
no bearing on the state). -/
def SetCachePath (cachePath : String) (c : Converter) : Converter :=
  { c with cachePath := cachePath }

/-- Witness instance for C8: a fresh converter with the default cache root. -/
def convW : Converter := ⟨"cache/convert", ""⟩

/-- Witness instance for C10: a converter that already holds a workspace
under the old cache root. -/
def convW10 : Converter := ⟨"cache/convert", "cache/convert/2024/01/02/aaa"⟩

/- ### Theorems -/

/-- C6: `ConvertToPDF` inspects the extension case-insensitively and
dispatches exactly as claimed: epub/mobi/azw/azw3/azw4/chm → ebook converter,
pdf → identity copy, umd/txt and every unrecognized extension → office suite,
with no error raised for unknown extensions (the router is total). -/
theorem convertToPDF_routes_as_claimed (src : String) :
    ConvertToPDF src = routeClaim src := by
  unfold ConvertToPDF routeClaim
  simp only [List.mem_cons, List.not_mem_nil, or_false]
  split_ifs <;> simp_all [ConvertEPUBToPDF, ConvertUMDToPDF, ConvertTXTToPDF,
    ConvertMOBIToPDF, ConvertAZWToPDF, ConvertCHMToPDF, PDFToPDF,
    ConvertOfficeToPDF, convertToPDFByCalibre, convertToPDFBySoffice]

/-- The page numbers of `rangePages` are consecutive from `f + i`. -/
theorem rangePages_pageNum (ws ext : String) (f : Int) :
    ∀ (n i : Nat), (rangePages ws ext f i n).map Page.pageNum
      = (List.range n).map (fun j => f + ((i + j : Nat) : Int))
  | 0, _ => by simp [rangePages]
  | Nat.succ n, i => by
    rw [List.range_succ_eq_map, List.map_cons, List.map_map]
    simp only [rangePages, List.map_cons]
    rw [rangePages_pageNum ws ext f n (i + 1)]
    refine congrArg₂ List.cons (by simp) ?_
    refine List.map_congr_left (fun a _ => ?_)
    show f + (((i + 1) + a : Nat) : Int) = f + ((i + (a + 1) : Nat) : Int)
    congr 1
    omega

/-- When every expected file exists, the post-`mutool` existence loop collects
the whole range and leaves the error nil. -/
theorem convertPDFToPageLoop_complete (env : PageEnv) (ws ext : String) (f : Int) :
    ∀ (n i : Nat), (∀ j, j < n → env.mutoolStat (i + j) = true) →
      convertPDFToPageLoop env ws ext f i n = (rangePages ws ext f i n, false)
  | 0, _, _ => rfl
  | Nat.succ n, i, h => by
    have h0 : env.mutoolStat i = true := by simpa using h 0 n.succ_pos
    have ih := convertPDFToPageLoop_complete env ws ext f n (i + 1) (fun j hj => by
      have e : i + (j + 1) = (i + 1) + j := by omega
      have := h (j + 1) (Nat.succ_lt_succ hj)
      rwa [e] at this)
    simp [convertPDFToPageLoop, h0, ih, rangePages]

/-- If some expected file in the range is missing, the existence loop leaves a
non-nil error behind (triggering the deferred fallback). -/
theorem convertPDFToPageLoop_err (env : PageEnv) (ws ext : String) (f : Int) :
    ∀ (n i : Nat), (∃ j, j < n ∧ env.mutoolStat (i + j) = false) →
      (convertPDFToPageLoop env ws ext f i n).2 = true
  | 0, _, h => by
    obtain ⟨j, hj, _⟩ := h
    exact absurd hj (Nat.not_lt_zero j)
  | Nat.succ n, i, h => by
    obtain ⟨j, hj, hs⟩ := h
    by_cases h0 : env.mutoolStat i = true
    · have hj0 : j ≠ 0 := by
        rintro rfl
        rw [Nat.add_zero, h0] at hs
        cases hs
      obtain ⟨j', rfl⟩ := Nat.exists_eq_succ_of_ne_zero hj0
      have ih := convertPDFToPageLoop_err env ws ext f n (i + 1)
        ⟨j', by omega, by rwa [show (i + 1) + j' = i + (j' + 1) by omega]⟩
      simp [convertPDFToPageLoop, h0, ih]
    · have h0' : env.mutoolStat i = false := by simpa using h0
      simp [convertPDFToPageLoop, h0']

/-- Invocation discipline of the inkscape fallback: the alternate `--pages`
form is only ever invoked for a page whose `--pdf-page` invocation failed,
and every recorded invocation is accompanied by a `--pdf-page` attempt for
the same page (the primary form is always tried first). -/
theorem convertPDFToPageByInkscape_calls (env : PageEnv) (ws ext : String) (f : Int) :
    ∀ (n i : Nat), ∀ c ∈ (convertPDFToPageByInkscape env ws ext f i n).calls,
      (c.form = InkForm.pagesAlt → env.inkOk1 c.page = false)
      ∧ InkCall.mk c.page InkForm.pdfPage
          ∈ (convertPDFToPageByInkscape env ws ext f i n).calls
  | 0, i, c, hc => by simp [convertPDFToPageByInkscape] at hc
  | Nat.succ n, i, c, hc => by
    by_cases h1 : env.inkOk1 (f + i) = true
    · by_cases hs : env.inkStat i = true
      · simp only [convertPDFToPageByInkscape, h1, hs, if_true, List.mem_cons] at hc ⊢
        rcases hc with rfl | hc
        · exact ⟨(fun habs => nomatch habs), Or.inl rfl⟩
        · obtain ⟨himp, hmem⟩ := convertPDFToPageByInkscape_calls env ws ext f n (i + 1) c hc
          exact ⟨himp, Or.inr hmem⟩
      · have hs' : env.inkStat i = false := by simpa using hs
        simp only [convertPDFToPageByInkscape, h1, hs', if_true, Bool.false_eq_true,
          if_false, List.mem_cons, List.not_mem_nil, or_false] at hc ⊢
        rcases hc with rfl
        exact ⟨(fun habs => nomatch habs), rfl⟩
    · have h1' : env.inkOk1 (f + i) = false := by simpa using h1
      by_cases h2 : env.inkOk2 (f + i) = true
      · by_cases hs : env.inkStat i = true
        · simp only [convertPDFToPageByInkscape, h1', h2, hs, if_true,
            Bool.false_eq_true, if_false, List.mem_cons] at hc ⊢
          rcases hc with rfl | rfl | hc
          · exact ⟨(fun habs => nomatch habs), Or.inl rfl⟩
          · exact ⟨fun _ => h1', Or.inl rfl⟩
          · obtain ⟨himp, hmem⟩ := convertPDFToPageByInkscape_calls env ws ext f n (i + 1) c hc
            exact ⟨himp, Or.inr (Or.inr hmem)⟩
        · have hs' : env.inkStat i = false := by simpa using hs
          simp only [convertPDFToPageByInkscape, h1', h2, hs', if_true,
            Bool.false_eq_true, if_false, List.mem_cons, List.not_mem_nil,
            or_false] at hc ⊢
          rcases hc with rfl | rfl
          · exact ⟨(fun habs => nomatch habs), Or.inl rfl⟩
          · exact ⟨fun _ => h1', Or.inl rfl⟩
      · have h2' : env.inkOk2 (f + i) = false := by simpa using h2
        simp only [convertPDFToPageByInkscape, h1', h2', Bool.false_eq_true,
          if_false, List.mem_cons, List.not_mem_nil, or_false] at hc ⊢
        rcases hc with rfl | rfl
        · exact ⟨(fun habs => nomatch habs), Or.inl rfl⟩
        · exact ⟨fun _ => h1', Or.inl rfl⟩

/-- Abandonment in the inkscape fallback: if the first `k` pages are processed
successfully (some invocation form succeeds and the file then exists) and both
argument forms fail for the next page, the run returns exactly the pages
collected so far together with a non-nil error — the remaining pages are not
attempted. -/
theorem convertPDFToPageByInkscape_abandon (env : PageEnv) (ws ext : String) (f : Int) :
    ∀ (k i n : Nat), k < n →
      (∀ j, j < k →
        (env.inkOk1 (f + (i + j : Nat)) || env.inkOk2 (f + (i + j : Nat))) = true
        ∧ env.inkStat (i + j) = true) →
      env.inkOk1 (f + (i + k : Nat)) = false →
      env.inkOk2 (f + (i + k : Nat)) = false →
      (convertPDFToPageByInkscape env ws ext f i n).pages = rangePages ws ext f i k
      ∧ (convertPDFToPageByInkscape env ws ext f i n).err = true
  | 0, i, n, hn, _, h1, h2 => by
    obtain ⟨m, rfl⟩ := Nat.exists_eq_succ_of_ne_zero (Nat.pos_iff_ne_zero.mp hn)
    rw [Nat.add_zero] at h1 h2
    simp [convertPDFToPageByInkscape, h1, h2, rangePages]
  | Nat.succ k, i, n, hn, hok, h1, h2 => by
    obtain ⟨m, rfl⟩ := Nat.exists_eq_succ_of_ne_zero (show n ≠ 0 by omega)
    have hstep := hok 0 k.succ_pos
    rw [Nat.add_zero] at hstep
    have ih := convertPDFToPageByInkscape_abandon env ws ext f k (i + 1) m
      (by omega)
      (fun j hj => by
        have := hok (j + 1) (Nat.succ_lt_succ hj)
        rwa [show i + (j + 1) = (i + 1) + j by omega] at this)
      (by rwa [show (i + 1) + k = i + (k + 1) by omega])
      (by rwa [show (i + 1) + k = i + (k + 1) by omega])
    by_cases hA : env.inkOk1 (f + i) = true
    · simp [convertPDFToPageByInkscape, hA, hstep.2, ih.1, ih.2, rangePages]
    · have hA' : env.inkOk1 (f + i) = false := by simpa using hA
      have hB : env.inkOk2 (f + i) = true := by
        have := hstep.1
        rwa [hA', Bool.false_or] at this
      simp [convertPDFToPageByInkscape, hA', hB, hstep.2, ih.1, ih.2, rangePages]

/-- C1 (amended): when the primary `mutool` invocation succeeds and every
expected per-page file exists, `convertPDFToPage` returns pages whose
`PageNum` values are exactly `fromPage..toPage` in order with a nil error;
but when some expected file is missing, the `os.Stat` error is left in the
named `err`, so the deferred closure fires and the whole range is re-run via
the inkscape fallback — the prefix collected by the primary loop is discarded
and the call returns the fallback's pages and error instead. -/
theorem convertPDFToPage_primary (env : PageEnv) (ws ext : String) (f t : Int)
    (hm : env.mutoolOk = true) :
    ((∀ i, i < pageCount f t → env.mutoolStat i = true) →
      convertPDFToPage env ws ext f t = (rangePages ws ext f 0 (pageCount f t), false)
      ∧ (convertPDFToPage env ws ext f t).1.map Page.pageNum
          = (List.range (pageCount f t)).map (fun j => f + (j : Nat)))
    ∧ ((∃ k, k < pageCount f t ∧ env.mutoolStat k = false) →
      convertPDFToPage env ws ext f t
        = ((convertPDFToPageByInkscape env ws ext f 0 (pageCount f t)).pages,
           (convertPDFToPageByInkscape env ws ext f 0 (pageCount f t)).err)) := by
  constructor
  · intro hstat
    have hloop := convertPDFToPageLoop_complete env ws ext f (pageCount f t) 0
      (fun j hj => by simpa using hstat j hj)
    have hres : convertPDFToPage env ws ext f t
        = (rangePages ws ext f 0 (pageCount f t), false) := by
      simp [convertPDFToPage, hm, hloop]
    refine ⟨hres, ?_⟩
    rw [hres]
    have := rangePages_pageNum ws ext f (pageCount f t) 0
    simpa using this
  · intro hmiss
    obtain ⟨k, hk, hkf⟩ := hmiss
    have herr := convertPDFToPageLoop_err env ws ext f (pageCount f t) 0
      ⟨k, hk, by simpa using hkf⟩
    simp [convertPDFToPage, hm, herr]

/-- Witness for C1 at a concrete input: both hypotheses of the successful
branch are discharged and the result evaluates to the two expected pages. -/
theorem convertPDFToPage_primary_witness :
    convertPDFToPage envC1ok "w" ".png" 1 2
      = ([⟨1, "w/1.png"⟩, ⟨2, "w/2.png"⟩], false) := by
  have h := ((convertPDFToPage_primary envC1ok "w" ".png" 1 2 rfl).1
    (fun _ _ => rfl)).1
  rw [h]
  rfl

/-- C1 counterexample: with the second expected file missing, the claim says
the call returns the strict prefix `[page 1]` with no error; the code instead
discards the prefix, re-runs the range through the (here failing) inkscape
fallback, and returns no pages together with an error. -/
theorem convertPDFToPage_missing_not_prefix :
    convertPDFToPage envC1miss "w" ".png" 1 2 = ([], true)
    ∧ convertPDFToPage envC1miss "w" ".png" 1 2
        ≠ ([⟨1, "w/1.png"⟩], false) := by
  refine ⟨rfl, fun h => ?_⟩
  rw [show convertPDFToPage envC1miss "w" ".png" 1 2 = ([], true) from rfl] at h
  exact List.noConfusion (congrArg Prod.fst h)

/-- C5: when the primary `mutool` invocation fails, the whole range is
retried through `convertPDFToPageByInkscape` (first conjunct); per page the
`--pdf-page` form is always attempted and the alternate `--pages` form only
after it fails (second conjunct); and if both forms fail for a page after `k`
successfully processed pages, the run stops there, returning the `k` pages
collected so far together with the error (third conjunct). -/
theorem convertPDFToPage_fallback (env : PageEnv) (ws ext : String) (f t : Int)
    (hm : env.mutoolOk = false) :
    (convertPDFToPage env ws ext f t
      = ((convertPDFToPageByInkscape env ws ext f 0 (pageCount f t)).pages,
         (convertPDFToPageByInkscape env ws ext f 0 (pageCount f t)).err))
    ∧ (∀ c ∈ (convertPDFToPageByInkscape env ws ext f 0 (pageCount f t)).calls,
        (c.form = InkForm.pagesAlt → env.inkOk1 c.page = false)
        ∧ InkCall.mk c.page InkForm.pdfPage
            ∈ (convertPDFToPageByInkscape env ws ext f 0 (pageCount f t)).calls)
    ∧ (∀ k, k < pageCount f t →
        (∀ j, j < k →
          (env.inkOk1 (f + (j : Nat)) || env.inkOk2 (f + (j : Nat))) = true
          ∧ env.inkStat j = true) →
        env.inkOk1 (f + (k : Nat)) = false → env.inkOk2 (f + (k : Nat)) = false →
        (convertPDFToPageByInkscape env ws ext f 0 (pageCount f t)).pages
            = rangePages ws ext f 0 k
        ∧ (convertPDFToPageByInkscape env ws ext f 0 (pageCount f t)).err = true) := by
  refine ⟨by simp [convertPDFToPage, hm], ?_, ?_⟩
  · exact fun c hc => convertPDFToPageByInkscape_calls env ws ext f (pageCount f t) 0 c hc
  · intro k hk hok h1 h2
    exact convertPDFToPageByInkscape_abandon env ws ext f k 0 (pageCount f t) hk
      (fun j hj => by simpa using hok j hj) (by simpa using h1) (by simpa using h2)

/-- Witness for C5 at a concrete input: the fallback collects pages 1 and 2
and abandons the range at page 3, returning the two pages with an error. -/
theorem convertPDFToPage_fallback_witness :
    convertPDFToPage envC5 "w" ".svg" 1 3
      = ([⟨1, "w/1.svg"⟩, ⟨2, "w/2.svg"⟩], true) := by
  have h1 := (convertPDFToPage_fallback envC5 "w" ".svg" 1 3 rfl).1
  have h3 := (convertPDFToPage_fallback envC5 "w" ".svg" 1 3 rfl).2.2 2
    (by norm_num [pageCount])
    (fun j hj => by interval_cases j <;> exact ⟨rfl, rfl⟩)
    rfl rfl
  rw [h1, h3.1, h3.2]
  rfl

/-- The jpg/webp per-page loop is pointwise: each successfully converted page
gets the new path, each failed one keeps its PNG path, and exactly the
successful pages' PNG files are removed. -/
theorem convertPagesLoop_eq (env : ConvEnv) (isWebp : Bool) :
    ∀ l : List Page,
      convertPagesLoop env isWebp l
        = (l.map (fun pg =>
             if env.convertOk pg.pagePath then
               { pg with pagePath :=
                   trimSuffixGo pg.pagePath (goExt pg.pagePath)
                     ++ (if isWebp then ".webp" else ".jpg") }
             else pg),
           (l.filter (fun pg => env.convertOk pg.pagePath)).map
             (fun pg => pg.pagePath))
  | [] => rfl
  | pg :: rest => by
    have ih := convertPagesLoop_eq env isWebp rest
    by_cases hc : env.convertOk pg.pagePath = true
    · cases isWebp <;>
        simp [convertPagesLoop, ConvertPNGToJPG, ConvertPNGToWEBP, hc, ih,
          List.filter_cons]
    · have hc' : env.convertOk pg.pagePath = false := by simpa using hc
      cases isWebp <;>
        simp [convertPagesLoop, ConvertPNGToJPG, ConvertPNGToWEBP, hc', ih,
          List.filter_cons]

/-- C9: requesting `jpg` (resp. `webp`) first rasterizes the PDF to PNG pages
(`ConvertPDFToPNG` over the same range), then converts each page
individually, best-effort: a page whose conversion succeeds appears with the
new `.jpg`/`.webp` path and its intermediate PNG is removed; a page whose
conversion fails keeps its PNG path and is not removed; the pipeline is never
aborted (all pages appear, and the returned error is the PNG stage's). -/
theorem convertPDFToPages_jpg_webp (env : ConvEnv) (ws : String) (f t : Int)
    (enableSVGO enableGZIP : Bool) :
    (∀ isWebp : Bool,
      ConvertPDFToPages env ws f t (if isWebp then "webp" else "jpg")
          enableSVGO enableGZIP
        = ⟨(ConvertPDFToPNG env ws f t).1.map (fun pg =>
             if env.convertOk pg.pagePath then
               { pg with pagePath :=
                   trimSuffixGo pg.pagePath (goExt pg.pagePath)
                     ++ (if isWebp then ".webp" else ".jpg") }
             else pg),
           ((ConvertPDFToPNG env ws f t).1.filter
             (fun pg => env.convertOk pg.pagePath)).map (fun pg => pg.pagePath),
           (ConvertPDFToPNG env ws f t).2⟩)
    ∧ (∀ isWebp : Bool,
        (ConvertPDFToPages env ws f t (if isWebp then "webp" else "jpg")
            enableSVGO enableGZIP).pages.length
          = (ConvertPDFToPNG env ws f t).1.length) := by
  have hmain : ∀ isWebp : Bool,
      ConvertPDFToPages env ws f t (if isWebp then "webp" else "jpg")
          enableSVGO enableGZIP
        = ⟨(ConvertPDFToPNG env ws f t).1.map (fun pg =>
             if env.convertOk pg.pagePath then
               { pg with pagePath :=
                   trimSuffixGo pg.pagePath (goExt pg.pagePath)
                     ++ (if isWebp then ".webp" else ".jpg") }
             else pg),
           ((ConvertPDFToPNG env ws f t).1.filter
             (fun pg => env.convertOk pg.pagePath)).map (fun pg => pg.pagePath),
           (ConvertPDFToPNG env ws f t).2⟩ := by
    intro isWebp
    cases isWebp
    · simp only [Bool.false_eq_true, if_false, ConvertPDFToPages]
      rw [(by decide : (⟨trimLeftCutset "jpg".data ".".data⟩ : String) = "jpg")]
      simp [convertPagesLoop_eq]
    · simp only [if_true, ConvertPDFToPages]
      rw [(by decide : (⟨trimLeftCutset "webp".data ".".data⟩ : String) = "webp")]
      simp [convertPagesLoop_eq]
  exact ⟨hmain, fun isWebp => by rw [hmain isWebp]; simp⟩

/-- `goSplit` always returns at least one segment, exactly like Go's
`strings.Split`. -/
theorem goSplitF_ne_nil (sep : List Char) :
    ∀ (fuel : Nat) (s : List Char), goSplitF sep fuel s ≠ []
  | 0, s => by simp [goSplitF]
  | Nat.succ fuel, s => by
    unfold goSplitF
    cases findSplit sep s <;> simp

/-- `goSplit` never returns the empty list. -/
theorem goSplit_ne_nil (s sep : List Char) : goSplit s sep ≠ [] :=
  goSplitF_ne_nil sep (s.length + 1) s

/-- C2 counterexample: with a successful primary process whose output lacks a
parsable `page` line, `CountPDFPages` returns the non-positive count `0` with
a nil error and the fallback chain is **not** invoked (ghost flag `false`),
contradicting the claim that any primary-path failure invokes
`countPDFPagesV2`. -/
theorem countPDFPages_unparsable_no_fallback :
    CountPDFPages envC2 = (0, none, false)
    ∧ (CountPDFPages envC2).2.2 ≠ true := by
  refine ⟨rfl, ?_⟩
  intro h
  rw [show CountPDFPages envC2 = (0, none, false) from rfl] at h
  cases h

/-- C2 (amended): the fallback chain `countPDFPagesV2` is invoked exactly
when the primary `mutool show` process itself fails; when the process
succeeds, the result is the scan of its output with a nil error and the
fallback is not attempted — even when the output lacks a parsable positive
`page` line (the scan then returns its non-positive last parse, usually 0). -/
theorem countPDFPages_fallback_iff (env : CountEnv) :
    ((CountPDFPages env).2.2 = true ↔ env.mutoolShow = none)
    ∧ (∀ out, env.mutoolShow = some out →
        CountPDFPages env = (parsePrimary out, none, false)) := by
  cases h : env.mutoolShow <;> simp [CountPDFPages, h]

/-- Witness for C2 (amended) at a concrete input: the hypothesis
`mutoolShow = some out` is discharged and the parse evaluates to 3 with no
fallback. -/
theorem countPDFPages_fallback_iff_witness :
    CountPDFPages envC2W = (3, none, false) := by
  have h := (countPDFPages_fallback_iff envC2W).2 "page 3" rfl
  rw [h]
  rfl

/-- C3 (code bug): because the `pdf.Open` error is assigned to a shadowed
`err`, `countPDFPagesV2` returns `(0, nil)` when the library reader fails
with an error, never reaching the raw-byte heuristic — which on this very
content would have counted 3 pages.  This contradicts the code's own comment
(use the next counting method when this one errors). -/
theorem countPDFPagesV2_shadowed_err :
    countPDFPagesV2 envC3 = (0, none)
    ∧ rawByteCount "g.pdf" "/Pages 1 0 R 2 0 R 3 0 R endobj".data = (3, none)
    ∧ CountPDFPages envC3 = (0, none, true) := ⟨rfl, rfl, rfl⟩

/-- C7 (code bug): `strings.Split` never returns an empty slice, so both
`l > 0` guards in the raw-byte stage always hold and the descriptive error
branches are unreachable: the stage returns a count with a nil error for
**every** content (first conjunct).  On the concrete structureless input it
returns the wrong count 1 with no error instead of the claimed descriptive
error (second conjunct). -/
theorem rawByteCount_never_reports_structure_errors :
    (∀ file content, (rawByteCount file content).2 = none)
    ∧ countPDFPagesV2 envC7 = (1, none) := by
  constructor
  · intro file content
    have h1 : 0 < (goSplit content "/Pages".data).length :=
      List.length_pos.mpr (goSplit_ne_nil content "/Pages".data)
    have h2 : 0 < (goSplit ((goSplit content "/Pages".data).getLastD [])
        "endobj".data).length :=
      List.length_pos.mpr (goSplit_ne_nil _ "endobj".data)
    simp only [rawByteCount]
    rw [if_pos h1, if_pos h2]
  · rfl

/-- C4: for any gzip codec (`decode` a left inverse of `encode`),
decompressing the bytes `CompressSVGByGZIP` writes yields exactly the input
with the two documented substitutions applied; and on every path (including
the read-error path) the returned destination filename ends in `.gzip.svg`. -/
theorem compressSVGByGZIP_roundtrip (encode decode : String → String)
    (hround : ∀ s, decode (encode s) = s) (svgFile content : String) :
    (CompressSVGByGZIP encode svgFile (some content)).written.map decode
      = some (svgSubstitute content)
    ∧ (∀ c : Option String,
        List.IsSuffix ".gzip.svg".data
          (CompressSVGByGZIP encode svgFile c).dst.data) := by
  constructor
  · simp [CompressSVGByGZIP, hround]
  · intro c
    have hdst : (CompressSVGByGZIP encode svgFile c).dst = gzipDstName svgFile := by
      cases c <;> rfl
    rw [hdst, gzipDstName, String.data_append]
    exact List.suffix_append _ _

/-- Witness for C4 at a concrete input with the identity codec: the written
bytes decode to the substituted input, and the destination name evaluates to
`a.gzip.svg`. -/
theorem compressSVGByGZIP_roundtrip_witness :
    (CompressSVGByGZIP id "a.svg" (some "x data-text=\"<\" y")).written.map id
      = some "x data-text=\"&lt;\" y"
    ∧ (CompressSVGByGZIP id "a.svg" (some "z")).dst = "a.gzip.svg" := by
  constructor
  · have h := (compressSVGByGZIP_roundtrip id id (fun _ => rfl) "a.svg"
      "x data-text=\"<\" y").1
    rw [h]
    rfl
  · rfl

/-- `takeWhile` runs through a block that wholly satisfies the predicate and
stops at the first failing element. -/
theorem takeWhile_append_cons {p : Char → Bool} :
    ∀ (x : List Char) (c : Char) (y : List Char),
      (∀ a ∈ x, p a = true) → p c = false → (x ++ c :: y).takeWhile p = x
  | [], c, y, _, hc => by simp [List.takeWhile, hc]
  | a :: x, c, y, hx, hc => by
    have ha : p a = true := hx a (List.mem_cons_self a x)
    simp [List.takeWhile, ha,
      takeWhile_append_cons x c y (fun b hb => hx b (List.mem_cons_of_mem a hb)) hc]

/-- The maximal slash-free suffix of `base ++ "/" ++ u` is `u` when `u`
contains no slash. -/
theorem lastComponent_append (base u : String) (h : ('/' : Char) ∉ u.data) :
    ((base ++ "/" ++ u).data.reverse.takeWhile (fun c => c != '/')).reverse
      = u.data := by
  have hd : (base ++ "/" ++ u).data.reverse
      = u.data.reverse ++ '/' :: base.data.reverse := by
    rw [String.data_append, String.data_append,
      (rfl : ("/" : String).data = ['/'])]
    simp
  rw [hd, takeWhile_append_cons u.data.reverse '/' base.data.reverse
    (fun a ha => by
      have hau : a ∈ u.data := List.mem_reverse.mp ha
      exact bne_iff_ne.mpr (fun heq => h (heq ▸ hau)))
    (by simp)]
  simp

/-- Two `/`-joined paths with distinct slash-free last components differ. -/
theorem joined_ne (b1 b2 u1 u2 : String) (h1 : ('/' : Char) ∉ u1.data)
    (h2 : ('/' : Char) ∉ u2.data) (hne : u1 ≠ u2) :
    b1 ++ "/" ++ u1 ≠ b2 ++ "/" ++ u2 := by
  intro h
  have hdata : ((b1 ++ "/" ++ u1).data.reverse.takeWhile (fun c => c != '/')).reverse
      = ((b2 ++ "/" ++ u2).data.reverse.takeWhile (fun c => c != '/')).reverse := by
    rw [h]
  rw [lastComponent_append b1 u1 h1, lastComponent_append b2 u2 h2] at hdata
  refine hne ?_
  cases u1
  cases u2
  exact congrArg String.mk (by simpa using hdata)

/-- A `/`-joined path is never the empty string. -/
theorem joined_ne_empty (b u : String) : b ++ "/" ++ u ≠ "" := by
  intro h
  have hdata := congrArg String.data h
  rw [String.data_append, String.data_append,
    (rfl : ("/" : String).data = ['/']), (rfl : ("" : String).data = [])] at hdata
  simp at hdata

/-- C8: on a fresh instance, the first workspace call mints
`<cacheRoot>/<date>/<uuid>` and caches it; a second call returns the identical
cached path; `Clean` removes exactly that tree and resets the cached path to
empty; and the next allocation (with a fresh uuid) mints a different path of
the same `<cacheRoot>/<date>/<uuid>` shape. -/
theorem workspace_lifecycle (c : Converter) (u1 d1 u2 d2 : String)
    (hw : c.workspace = "") (hne : u1 ≠ u2)
    (hu1 : ('/' : Char) ∉ u1.data) (hu2 : ('/' : Char) ∉ u2.data) :
    (makeWorkspace u2 d2 (makeWorkspace u1 d1 c).2).1 = (makeWorkspace u1 d1 c).1
    ∧ (makeWorkspace u1 d1 c).1 = c.cachePath ++ "/" ++ d1 ++ "/" ++ u1
    ∧ (Clean (makeWorkspace u1 d1 c).2).1 = some ((makeWorkspace u1 d1 c).1)
    ∧ (Clean (makeWorkspace u1 d1 c).2).2.workspace = ""
    ∧ (makeWorkspace u2 d2 (Clean (makeWorkspace u1 d1 c).2).2).1
        = c.cachePath ++ "/" ++ d2 ++ "/" ++ u2
    ∧ (makeWorkspace u2 d2 (Clean (makeWorkspace u1 d1 c).2).2).1
        ≠ (makeWorkspace u1 d1 c).1 := by
  have hw1 : makeWorkspace u1 d1 c
      = (c.cachePath ++ "/" ++ d1 ++ "/" ++ u1,
         { c with workspace := c.cachePath ++ "/" ++ d1 ++ "/" ++ u1 }) := by
    simp [makeWorkspace, hw]
  have hne1 := joined_ne_empty (c.cachePath ++ "/" ++ d1) u1
  have hsecond : (makeWorkspace u2 d2 (makeWorkspace u1 d1 c).2).1
      = (makeWorkspace u1 d1 c).1 := by
    rw [hw1]
    simp [makeWorkspace, hne1]
  have hclean : Clean (makeWorkspace u1 d1 c).2
      = (some (c.cachePath ++ "/" ++ d1 ++ "/" ++ u1),
         { c with workspace := "" }) := by
    rw [hw1]
    simp [Clean, hne1]
  have hfresh : (makeWorkspace u2 d2 (Clean (makeWorkspace u1 d1 c).2).2).1
      = c.cachePath ++ "/" ++ d2 ++ "/" ++ u2 := by
    rw [hclean]
    simp [makeWorkspace]
  refine ⟨hsecond, by rw [hw1], ?_, by rw [hclean], hfresh, ?_⟩
  · rw [hclean, hw1]
  · rw [hfresh, hw1]
    exact joined_ne (c.cachePath ++ "/" ++ d2) (c.cachePath ++ "/" ++ d1) u2 u1
      hu2 hu1 (Ne.symm hne)

/-- Witness for C8 at concrete inputs: all four hypotheses are discharged and
the post-`Clean` allocation evaluates to the new concrete path. -/
theorem workspace_lifecycle_witness :
    (makeWorkspace "bbb" "2024/01/03"
        (Clean (makeWorkspace "aaa" "2024/01/02" convW).2).2).1
      = "cache/convert/2024/01/03/bbb" := by
  have h := (workspace_lifecycle convW "aaa" "2024/01/02" "bbb" "2024/01/03" rfl
    (by decide) (by decide) (by decide)).2.2.2.2.1
  rw [h]
  rfl

/-- C10: `SetCachePath` changes only the cache-root field: the cached
workspace is untouched, a subsequent workspace call on an instance that
already has a workspace still returns the old path (under the previous cache
root), and only after `Clean` does the next allocation land under the new
cache root. -/
theorem setCachePath_frame (c : Converter) (p u d u2 d2 : String) :
    (SetCachePath p c).workspace = c.workspace
    ∧ (SetCachePath p c).cachePath = p
    ∧ (c.workspace ≠ "" → (makeWorkspace u d (SetCachePath p c)).1 = c.workspace)
    ∧ (makeWorkspace u2 d2 (Clean (SetCachePath p c)).2).1
        = p ++ "/" ++ d2 ++ "/" ++ u2 := by
  refine ⟨rfl, rfl, ?_, ?_⟩
  · intro hne
    simp [makeWorkspace, SetCachePath, hne]
  · by_cases hcw : c.workspace = ""
    · simp [Clean, SetCachePath, hcw, makeWorkspace]
    · simp [Clean, SetCachePath, hcw, makeWorkspace]

/-- Witness for C10 at concrete inputs: after `SetCachePath "newroot"` the
workspace is unchanged, the next workspace call still returns it, and after
`Clean` the allocation lands under `newroot`. -/
theorem setCachePath_frame_witness :
    (SetCachePath "newroot" convW10).workspace = "cache/convert/2024/01/02/aaa"
    ∧ (makeWorkspace "u" "2024/01/05" (SetCachePath "newroot" convW10)).1
        = "cache/convert/2024/01/02/aaa"
    ∧ (makeWorkspace "bbb" "2024/01/05" (Clean (SetCachePath "newroot" convW10)).2).1
        = "newroot/2024/01/05/bbb" := by
  refine ⟨(setCachePath_frame convW10 "newroot" "u" "2024/01/05" "bbb" "2024/01/05").1, ?_, ?_⟩
  · have h := (setCachePath_frame convW10 "newroot" "u" "2024/01/05" "bbb"
      "2024/01/05").2.2.1 (by decide)
    rw [h]
    rfl
  · have h := (setCachePath_frame convW10 "newroot" "u" "2024/01/05" "bbb"
      "2024/01/05").2.2.2
    rw [h]
    rfl
